import Mathlib

/-!
Shallow embedding of the daily quota gate of `prediction_bot`
(`src/scheduler.py`), the prediction stub (`src/model.py`) and the
`/predict` handler control flow shared by `src/bot.py` and `src/main.py`.

The backing storage is the single file at `DATA_PATH`.  Its observable
states, as far as `json.load` is concerned, are: the file is absent, the
file exists but its content does not parse as a record, or the file holds
a record `{date, count}`.  `count` is modelled as `Int` (a Python/JSON
integer); dates are the strings produced by `strftime("%Y-%m-%d")`,
passed in explicitly as the `today` argument (the evaluation clock).
Operations that can raise a Python exception return `Except Unit`.
-/

/-- The persisted entity: `{"date": ..., "count": ...}`. -/
structure QuotaRecord where
  date : String
  count : Int
deriving DecidableEq, Repr

/-- Observable state of the file at `DATA_PATH`. -/
inductive FileState where
  | absent : FileState
  | corrupt : FileState
  | record : QuotaRecord → FileState
deriving DecidableEq, Repr

/-- `_load_data`: if the file does not exist, return the default record;
otherwise `json.load` the content, which raises when the content does not
parse (there is no `try`/`except` in the source). -/
def load_data : FileState → Except Unit QuotaRecord
  | .absent => .ok ⟨"", 0⟩
  | .corrupt => .error ()
  | .record r => .ok r

/-- First half of `_save_data`: `open(DATA_PATH, "w")` truncates the file
to empty content, which `json.load` cannot parse. -/
def openTruncate (_fs : FileState) : FileState := .corrupt

/-- Second half of `_save_data`: `json.dump(data, f)` writes the record. -/
def writeRecord (r : QuotaRecord) (_fs : FileState) : FileState := .record r

/-- `_save_data`: truncating open followed by the dump of the record. -/
def save_data (r : QuotaRecord) (fs : FileState) : FileState :=
  writeRecord r (openTruncate fs)

/-- `can_predict_today`: load the record, return `True` when the stored
date differs from today, else `count < 10`.  Translated in state-passing
style: the second component is the storage after the call. -/
def can_predict_today (fs : FileState) (today : String) :
    Except Unit (Bool × FileState) :=
  match load_data fs with
  | .error e => .error e
  | .ok d => .ok (if d.date ≠ today then true else decide (d.count < 10), fs)

/-- `register_prediction`: load the record; on a date mismatch replace it
by `{date: today, count: 1}`, else increment `count`; save.  Returns the
storage after the call. -/
def register_prediction (fs : FileState) (today : String) :
    Except Unit FileState :=
  match load_data fs with
  | .error e => .error e
  | .ok d =>
    let d' := if d.date ≠ today then QuotaRecord.mk today 1
              else { d with count := d.count + 1 }
    .ok (save_data d' fs)

/-- `n` consecutive `register_prediction` calls on the same calendar day. -/
def register_n : Nat → FileState → String → Except Unit FileState
  | 0, fs, _ => .ok fs
  | n + 1, fs, today =>
    match register_prediction fs today with
    | .error e => .error e
    | .ok fs' => register_n n fs' today

/-- Storage states reachable through the `/predict` handler flow of
`src/bot.py` / `src/main.py`: starting from an absent file, the storage is
only ever mutated by a `register_prediction` guarded by a preceding
`can_predict_today` returning `True` (denied requests and reads leave the
storage unchanged). -/
inductive Reach : FileState → Prop
  | init : Reach .absent
  | step (fs fs' : FileState) (today : String) :
      Reach fs →
      can_predict_today fs today = .ok (true, fs) →
      register_prediction fs today = .ok fs' →
      Reach fs'

-- Basic evaluation lemmas

theorem load_save (r : QuotaRecord) (fs : FileState) :
    load_data (save_data r fs) = .ok r := rfl

theorem can_predict_same_day (c : Int) (today : String) :
    can_predict_today (.record ⟨today, c⟩) today =
      .ok (decide (c < 10), .record ⟨today, c⟩) := by
  simp [can_predict_today, load_data]

theorem can_predict_stale (fs : FileState) (today : String) (r : QuotaRecord)
    (hload : load_data fs = .ok r) (hstale : r.date ≠ today) :
    can_predict_today fs today = .ok (true, fs) := by
  simp [can_predict_today, hload, hstale]

theorem register_same_day (fs : FileState) (today : String) (d : QuotaRecord)
    (hload : load_data fs = .ok d) (hdate : d.date = today) :
    register_prediction fs today = .ok (.record ⟨today, d.count + 1⟩) := by
  simp [register_prediction, hload, hdate, save_data, writeRecord, openTruncate]

theorem register_stale (fs : FileState) (today : String) (d : QuotaRecord)
    (hload : load_data fs = .ok d) (hstale : d.date ≠ today) :
    register_prediction fs today = .ok (.record ⟨today, 1⟩) := by
  simp [register_prediction, hload, hstale, save_data, writeRecord, openTruncate]

theorem register_n_same_day (today : String) :
    ∀ (n : Nat) (c : Int),
      register_n n (.record ⟨today, c⟩) today =
        .ok (.record ⟨today, c + n⟩) := by
  intro n
  induction n with
  | zero => intro c; simp [register_n]
  | succ n ih =>
    intro c
    have hstep := register_same_day (.record ⟨today, c⟩) today ⟨today, c⟩ rfl rfl
    have harith : c + 1 + (n : Int) = c + ((n + 1 : Nat) : Int) := by
      push_cast
      ring
    simp only [register_n, hstep, ih]
    rw [harith]

deriving instance DecidableEq for Except

/-- C1: starting from an absent store or a record whose date differs from
today, after `N` consecutive `register_prediction` calls on the same day,
`can_predict_today` returns `true` iff `N < 10` (in particular `false`
after exactly 10 calls). -/
theorem c1_limit_after_n_calls (N : Nat) (fs0 : FileState) (today : String)
    (r : QuotaRecord) (hload : load_data fs0 = .ok r) (hstale : r.date ≠ today) :
    ∃ fsN, register_n N fs0 today = .ok fsN ∧
      can_predict_today fsN today = .ok (decide (N < 10), fsN) := by
  cases N with
  | zero =>
    exact ⟨fs0, rfl, by simpa using can_predict_stale fs0 today r hload hstale⟩
  | succ n =>
    have h1 := register_stale fs0 today r hload hstale
    have h2 := register_n_same_day today n 1
    refine ⟨.record ⟨today, 1 + n⟩, ?_, ?_⟩
    · simp only [register_n, h1, h2]
    · have hiff : ((1 : Int) + (n : Int) < 10) ↔ ((n + 1 : Nat) < 10) := by omega
      rw [can_predict_same_day, decide_eq_decide.mpr hiff]

theorem c1_witness :
    ∃ fsN, register_n 10 FileState.absent "2024-01-01" = .ok fsN ∧
      can_predict_today fsN "2024-01-01" = .ok (false, fsN) := by
  simpa using
    c1_limit_after_n_calls 10 .absent "2024-01-01" ⟨"", 0⟩ rfl (by decide)

/-- C2 counterexample: on an existing but unparseable file, `_load_data`
propagates the `json.load` error instead of returning the default record
`{date: "", count: 0}`. -/
theorem c2_counterexample :
    load_data FileState.corrupt = Except.error () ∧
    load_data FileState.corrupt ≠ Except.ok (QuotaRecord.mk "" 0) :=
  ⟨rfl, by decide⟩

/-- C2 amended: `_load_data` returns the default `{date: "", count: 0}`
only when the file is absent; when the file exists it parses the content,
raising (propagating the error to the caller) on unparseable content and
returning the stored record otherwise. -/
theorem c2_load_behaviour :
    load_data FileState.absent = Except.ok ⟨"", 0⟩ ∧
    load_data FileState.corrupt = Except.error () ∧
    ∀ r : QuotaRecord, load_data (FileState.record r) = Except.ok r :=
  ⟨rfl, rfl, fun _ => rfl⟩

theorem reach_count_bounds {fs : FileState} (h : Reach fs) :
    ∀ r : QuotaRecord, load_data fs = .ok r → 0 ≤ r.count ∧ r.count ≤ 10 := by
  induction h with
  | init =>
    intro r hr
    simp only [load_data, Except.ok.injEq] at hr
    simp [← hr]
  | step fs fs' today hreach hcan hreg ih =>
    intro r hr
    cases hd : load_data fs with
    | error e => simp [can_predict_today, hd] at hcan
    | ok d =>
      simp only [can_predict_today, hd, Except.ok.injEq, Prod.mk.injEq] at hcan
      simp only [register_prediction, hd, Except.ok.injEq] at hreg
      by_cases hdate : d.date = today
      · simp only [hdate, ne_eq, not_true_eq_false, if_neg, ite_false,
          decide_eq_true_eq] at hcan hreg
        have hlt : d.count < 10 := hcan.1
        have hge : 0 ≤ d.count := (ih d hd).1
        rw [← hreg] at hr
        simp only [save_data, writeRecord, load_data, Except.ok.injEq] at hr
        rw [← hr]
        constructor <;> simp <;> omega
      · simp only [hdate, ne_eq, not_false_eq_true, if_pos, ite_true] at hcan hreg
        rw [← hreg] at hr
        simp only [save_data, writeRecord, load_data, Except.ok.injEq] at hr
        rw [← hr]
        constructor <;> simp

/-- C3: along the guarded `/predict` flow (the only writer of the store:
`register_prediction` preceded by a `can_predict_today` returning `true`),
every record persisted by a successful `register_prediction` has
`0 ≤ count ≤ 10`. -/
theorem c3_reachable_count_invariant (fs fs' : FileState) (today : String)
    (r : QuotaRecord) (hreach : Reach fs)
    (hcan : can_predict_today fs today = .ok (true, fs))
    (hreg : register_prediction fs today = .ok fs')
    (hload : load_data fs' = .ok r) :
    0 ≤ r.count ∧ r.count ≤ 10 :=
  reach_count_bounds (Reach.step fs fs' today hreach hcan hreg) r hload

theorem c3_witness :
    0 ≤ (QuotaRecord.mk "2024-01-01" 1).count ∧
      (QuotaRecord.mk "2024-01-01" 1).count ≤ 10 :=
  c3_reachable_count_invariant .absent (.record ⟨"2024-01-01", 1⟩)
    "2024-01-01" ⟨"2024-01-01", 1⟩ Reach.init (by decide) (by decide) rfl

/-- C4: when the stored date equals today, `register_prediction`
unconditionally increments the stored count to `c + 1` — it performs no
limit check, so from `c = 10` it persists a count strictly above 10. -/
theorem c4_increment_no_limit_check (fs : FileState) (today : String)
    (d : QuotaRecord) (hload : load_data fs = .ok d) (hdate : d.date = today)
    (hpos : 0 ≤ d.count) :
    register_prediction fs today = .ok (.record ⟨today, d.count + 1⟩) ∧
      (10 ≤ d.count → 10 < d.count + 1) :=
  ⟨register_same_day fs today d hload hdate, fun h => by omega⟩

theorem c4_witness :
    register_prediction (FileState.record ⟨"2024-01-01", 10⟩) "2024-01-01" =
        .ok (.record ⟨"2024-01-01", (10 : Int) + 1⟩) ∧
      (10 ≤ (10 : Int) → 10 < (10 : Int) + 1) :=
  c4_increment_no_limit_check (.record ⟨"2024-01-01", 10⟩) "2024-01-01"
    ⟨"2024-01-01", 10⟩ rfl rfl (by decide)

/-- C5: on a stored record whose date differs from today (whatever its
count), `can_predict_today` returns `true` and the next
`register_prediction` persists `{date: today, count: 1}`. -/
theorem c5_day_rollover (fs : FileState) (today : String) (r : QuotaRecord)
    (hload : load_data fs = .ok r) (hstale : r.date ≠ today) :
    can_predict_today fs today = .ok (true, fs) ∧
      register_prediction fs today = .ok (.record ⟨today, 1⟩) :=
  ⟨can_predict_stale fs today r hload hstale,
   register_stale fs today r hload hstale⟩

theorem c5_witness :
    can_predict_today (FileState.record ⟨"2024-01-01", 10⟩) "2024-01-02" =
        .ok (true, FileState.record ⟨"2024-01-01", 10⟩) ∧
      register_prediction (FileState.record ⟨"2024-01-01", 10⟩) "2024-01-02" =
        .ok (.record ⟨"2024-01-02", 1⟩) :=
  c5_day_rollover (.record ⟨"2024-01-01", 10⟩) "2024-01-02"
    ⟨"2024-01-01", 10⟩ rfl (by decide)

/-- C6: `can_predict_today` never mutates the storage — the post-state it
returns equals the pre-state — and repeating the call with an unchanged
clock yields the same boolean. -/
theorem c6_can_predict_pure (fs : FileState) (today : String) (b : Bool)
    (fs₁ : FileState) (h : can_predict_today fs today = .ok (b, fs₁)) :
    fs₁ = fs ∧ can_predict_today fs₁ today = .ok (b, fs₁) := by
  cases hd : load_data fs with
  | error e => simp [can_predict_today, hd] at h
  | ok d =>
    simp only [can_predict_today, hd, Except.ok.injEq, Prod.mk.injEq] at h
    obtain ⟨hb, hfs⟩ := h
    subst hfs
    exact ⟨rfl, by simp [can_predict_today, hd, hb]⟩

theorem c6_witness :
    FileState.record ⟨"2024-01-01", 3⟩ = FileState.record ⟨"2024-01-01", 3⟩ ∧
      can_predict_today (FileState.record ⟨"2024-01-01", 3⟩) "2024-01-01" =
        .ok (true, FileState.record ⟨"2024-01-01", 3⟩) :=
  c6_can_predict_pure (.record ⟨"2024-01-01", 3⟩) "2024-01-01" true
    (.record ⟨"2024-01-01", 3⟩) (by decide)

/-- C7: on every storage state where `_load_data` succeeds, saving the
loaded record back leaves subsequent loads unchanged: they return that
same record. -/
theorem c7_save_load_roundtrip (fs : FileState) (r : QuotaRecord)
    (hload : load_data fs = .ok r) :
    load_data (save_data r fs) = .ok r :=
  load_save r fs

theorem c7_witness :
    load_data (save_data ⟨"", 0⟩ FileState.absent) = .ok ⟨"", 0⟩ :=
  c7_save_load_roundtrip .absent ⟨"", 0⟩ rfl

/-- C8 counterexample: `_save_data` opens the file with mode `"w"`, which
truncates it before `json.dump` writes the new content; a read interleaved
between the two steps observes an empty, unparseable file — neither the
complete old record nor the complete new one — so the persist is not
atomic. -/
theorem c8_counterexample :
    load_data (openTruncate (FileState.record ⟨"2024-01-01", 3⟩)) ≠
        Except.ok (QuotaRecord.mk "2024-01-01" 3) ∧
    load_data (openTruncate (FileState.record ⟨"2024-01-01", 3⟩)) ≠
        Except.ok (QuotaRecord.mk "2024-01-01" 4) ∧
    save_data ⟨"2024-01-01", 4⟩ (FileState.record ⟨"2024-01-01", 3⟩) =
      writeRecord ⟨"2024-01-01", 4⟩
        (openTruncate (FileState.record ⟨"2024-01-01", 3⟩)) := by
  refine ⟨by decide, by decide, rfl⟩

/-- C8 amended: `_save_data` is a truncating open followed by the dump: a
load interleaved between the two steps fails to parse (observes neither
record), and once the dump completes every load returns the new record —
the overwrite itself is unconditional (last-writer-wins). -/
theorem c8_save_two_phase (fs : FileState) (r : QuotaRecord) :
    save_data r fs = writeRecord r (openTruncate fs) ∧
    load_data (openTruncate fs) = Except.error () ∧
    load_data (writeRecord r (openTruncate fs)) = Except.ok r :=
  ⟨rfl, rfl, rfl⟩

/-- `random.randint(a, b)`: an integer drawn uniformly from `[a, b]`; the
generator state behind the draw is abstracted by `seed`. -/
def randint (a b seed : Nat) : Nat := a + seed % (b - a + 1)

/-- One entry of `get_top_predictions`: `{"label": ..., "confidence": ...}`. -/
structure Prediction where
  label : String
  confidence : Nat
deriving DecidableEq, Repr

/-- The order realised by `predictions.sort(key=lambda x: -x["confidence"])`:
descending confidence. -/
def byConfDesc (p q : Prediction) : Prop := q.confidence ≤ p.confidence

instance : DecidableRel byConfDesc := fun p q =>
  inferInstanceAs (Decidable (q.confidence ≤ p.confidence))

instance : IsTotal Prediction byConfDesc :=
  ⟨fun p q => Nat.le_total q.confidence p.confidence⟩

instance : IsTrans Prediction byConfDesc :=
  ⟨fun _ _ _ hpq hqr => le_trans hqr hpq⟩

/-- The hard-coded match list of `src/model.py`. -/
def matchList : List String :=
  ["Real Madrid vs Barcelona - Real Win",
   "Man City vs Liverpool - Draw",
   "Boca Juniors vs River Plate - River Win",
   "Mamelodi Sundowns vs Kaizer Chiefs - Sundowns Win",
   "Ajax vs PSV - Over 2.5 Goals"]

/-- The comprehension `[{"label": m, "confidence": random.randint(80, 99)}
for m in matchList]`: one draw per match, the generator advancing once per
iteration (`i` indexes the draw). -/
def drawAll (seeds : Nat → Nat) : List String → Nat → List Prediction
  | [], _ => []
  | m :: ms, i =>
    Prediction.mk m (randint 80 99 (seeds i)) :: drawAll seeds ms (i + 1)

/-- `get_top_predictions`: draw a confidence per match, stable-sort by
descending confidence, return the first 5. -/
def get_top_predictions (seeds : Nat → Nat) : List Prediction :=
  (List.insertionSort byConfDesc (drawAll seeds matchList 0)).take 5

theorem randint_draw_le (s : Nat) : randint 80 99 s ≤ 99 := by
  have h : s % (99 - 80 + 1) < 20 := Nat.mod_lt s (by decide)
  simp only [randint]
  omega

theorem drawAll_mem (seeds : Nat → Nat) :
    ∀ (ms : List String) (i : Nat) (p : Prediction),
      p ∈ drawAll seeds ms i → p.label ∈ ms ∧ p.confidence ≤ 99 := by
  intro ms
  induction ms with
  | nil => intro i p hp; simp [drawAll] at hp
  | cons m ms ih =>
    intro i p hp
    simp only [drawAll, List.mem_cons] at hp
    rcases hp with hp | hp
    · subst hp
      exact ⟨List.mem_cons_self _ _, randint_draw_le _⟩
    · have := ih (i + 1) p hp
      exact ⟨List.mem_cons_of_mem _ this.1, this.2⟩

/-- C9: for every outcome of the random draws, `get_top_predictions`
returns at most 5 entries, each carrying one of the hard-coded match
labels and a confidence within 0–100, sorted by descending confidence
(confidence is a `Nat`, so the lower bound 0 is implicit). -/
theorem c9_top_predictions_shape (seeds : Nat → Nat) :
    (get_top_predictions seeds).length ≤ 5 ∧
    List.Sorted byConfDesc (get_top_predictions seeds) ∧
    ∀ p ∈ get_top_predictions seeds, p.label ∈ matchList ∧ p.confidence ≤ 100 := by
  refine ⟨?_, ?_, ?_⟩
  · rw [get_top_predictions, List.length_take]
    exact min_le_left _ _
  · exact List.Pairwise.sublist (List.take_sublist _ _)
      (List.sorted_insertionSort byConfDesc (drawAll seeds matchList 0))
  · intro p hp
    have hsort : p ∈ List.insertionSort byConfDesc (drawAll seeds matchList 0) :=
      (List.take_sublist _ _).mem hp
    have hdraw : p ∈ drawAll seeds matchList 0 :=
      (List.perm_insertionSort byConfDesc _).mem_iff.mp hsort
    have h := drawAll_mem seeds matchList 0 p hdraw
    exact ⟨h.1, le_trans h.2 (by omega)⟩

/-- The replies the `/predict` handler can send. -/
inductive Reply where
  | limitReached : Reply
  | noPredictions : Reply
  | predictionList : List Prediction → Reply
deriving DecidableEq, Repr

/-- The `/predict` handler control flow shared by `src/bot.py` and
`src/main.py`: check `can_predict_today`; if denied, reply with the limit
message and stop; otherwise fetch the predictions (`preds` is the list the
call to `get_top_predictions` returned), call `register_prediction`, and
only then branch on emptiness: the no-predictions message on an empty
list, the formatted list otherwise. -/
def predict (fs : FileState) (today : String) (preds : List Prediction) :
    Except Unit (Reply × FileState) :=
  match can_predict_today fs today with
  | .error e => .error e
  | .ok (false, fs₁) => .ok (.limitReached, fs₁)
  | .ok (true, fs₁) =>
    match register_prediction fs₁ today with
    | .error e => .error e
    | .ok fs₂ =>
      if preds.isEmpty then .ok (.noPredictions, fs₂)
      else .ok (.predictionList preds, fs₂)

/-- C10: when the gate allows and the fetched prediction list is empty,
the handler still calls `register_prediction` (the quota is consumed:
the resulting storage is `register_prediction`'s post-state) and the user
receives only the no-predictions reply. -/
theorem c10_quota_consumed_on_empty (fs : FileState) (today : String)
    (preds : List Prediction)
    (hcan : can_predict_today fs today = .ok (true, fs))
    (hempty : preds = []) :
    ∃ fs', register_prediction fs today = .ok fs' ∧
      predict fs today preds = .ok (.noPredictions, fs') := by
  cases hd : load_data fs with
  | error e => simp [can_predict_today, hd] at hcan
  | ok d =>
    have hreg : register_prediction fs today =
        .ok (save_data (if d.date ≠ today then QuotaRecord.mk today 1
              else { d with count := d.count + 1 }) fs) := by
      simp only [register_prediction, hd]
    exact ⟨_, hreg, by simp [predict, hcan, hreg, hempty]⟩

theorem c10_witness :
    ∃ fs', register_prediction (FileState.record ⟨"2024-01-01", 3⟩)
        "2024-01-01" = .ok fs' ∧
      predict (FileState.record ⟨"2024-01-01", 3⟩) "2024-01-01" [] =
        .ok (.noPredictions, fs') :=
  c10_quota_consumed_on_empty (.record ⟨"2024-01-01", 3⟩) "2024-01-01" []
    (by decide) rfl
